import Mathlib

/-!
Shallow embedding of the animation core of the analog-watch app
(`AnalogWatch` in the watch module): the time sampler `now`, the per-hand
phase computation in `animateHands`, the keyframe construction and
animation-data cache of `animateHandHelper`, and a small interleaving
semantics for the asynchronous two-phase playback and `stop()`.

JavaScript numbers are modelled by `ℚ`; every quantity occurring in the
claims is an exact rational, and all arithmetic performed by the code on
those quantities (`+ - * / %` on in-range values) is exact in IEEE doubles
as well as in `ℚ` for the integer samples produced by `now`.
-/

namespace AnalogWatch

/-- One wall-clock reading as rendered by
`d.toLocaleTimeString("en-US", { timeZone: tz, hour12: true })` and split
on `:` — a 12-hour-clock hour (1..12), a minute and a second (0..59).
The rendering itself is done by the JavaScript runtime; the embedding
takes the rendered components as input. -/
structure Reading where
  hour : ℕ
  minute : ℕ
  second : ℕ
deriving DecidableEq, Repr

/-- Validity of a rendering: en-US 12-hour clock hours run 1..12
(midnight and noon render as 12), minutes and seconds 0..59. -/
def Reading.valid (r : Reading) : Prop :=
  1 ≤ r.hour ∧ r.hour ≤ 12 ∧ r.minute < 60 ∧ r.second < 60

instance (r : Reading) : Decidable r.valid := by
  unfold Reading.valid; infer_instance

/-- The time sampler `AnalogWatch.now`: with `t = [hour, minute, second]`
the parsed components of the local reading, the source returns
`t[0] * 3600 + t[1] * 60 + t[0]` — the last addend is `t[0]` (the hour
component again), not `t[2]`. -/
def now (r : Reading) : ℕ :=
  r.hour * 3600 + r.minute * 60 + r.hour

/-- The three hands iterated by `animateHands`. -/
inductive Hand
  | hour
  | minute
  | second
deriving DecidableEq, Repr

/-- Cycle length in seconds (`full` in `animateHands`):
`12 * 3600` for the hour hand, `3600` for the minute hand, `60` for the
second hand. -/
def Hand.full : Hand → ℚ
  | .hour => 12 * 3600
  | .minute => 3600
  | .second => 60

/-- JavaScript `%` on numbers. For the operands this program feeds it
(a nonnegative `time` and a positive `full`), the truncated remainder of
JavaScript coincides with the floored remainder used here. -/
def jsMod (a b : ℚ) : ℚ := a - b * ⌊a / b⌋

/-- The `init` computed per hand by `animateHands`:
`time / full * 360` for the hour hand (no `%` in the source), and
`time % full / full * 360` for the minute and second hands. -/
def initAngle (h : Hand) (time : ℚ) : ℚ :=
  match h with
  | .hour => time / (12 * 3600) * 360
  | .minute => jsMod time 3600 / 3600 * 360
  | .second => jsMod time 60 / 60 * 360

/-- Modelled from the spec: the spec's phase computation
`initAngle = (sample mod full) / full * 360` applied uniformly to every
hand; to be compared with `initAngle`, which embeds the source. -/
def specInitAngle (h : Hand) (time : ℚ) : ℚ :=
  jsMod time h.full / h.full * 360

/-- The `duration` computed per hand by `animateHands`:
`(360 - init) / 360 * full`. -/
def catchUpDuration (h : Hand) (time : ℚ) : ℚ :=
  (360 - initAngle h time) / 360 * h.full

/-- One keyframe of `animateHandHelper`: a time in seconds and a target
angle in degrees (the source stores the angle as
`Quaternion.FromEulerAngles(0, angle * DegreesToRadians, 0)`; the degree
value determines the quaternion, so the embedding keeps the degrees). -/
structure Keyframe where
  time : ℚ
  angle : ℚ
deriving DecidableEq, Repr

/-- The keyframe array built by `animateHandHelper`: start at `⟨0, init⟩`,
end at `⟨duration, 360⟩`, and when `init < 180` splice a midpoint
`⟨duration / (360 - init) * (180 - init), 180⟩` in at index 1. -/
def keyframes (init duration : ℚ) : List Keyframe :=
  if init < 180 then
    [⟨0, init⟩, ⟨duration / (360 - init) * (180 - init), 180⟩, ⟨duration, 360⟩]
  else
    [⟨0, init⟩, ⟨duration, 360⟩]

/-- The authored duration of one-track animation data
(`animationData.duration()` of the host SDK, which the source waits on;
per the spec it is derived from the last keyframe's time value). -/
def dataDuration (ks : List Keyframe) : ℚ :=
  ((ks.getLast?).map Keyframe.time).getD 0

/-- The wait performed after binding a non-looping animation:
`await new Promise(r => setTimeout(r, animationData.duration() * 1000))`,
i.e. `dataDuration` of the catch-up keyframes, in seconds. -/
def catchUpWait (init duration : ℚ) : ℚ :=
  dataDuration (keyframes init duration)

/-- The cache key of `animateHandHelper`: the animation name
`name + blank + init + blank + duration` encodes the hand name, the
initial angle and the duration; the embedding keeps the three components
as a triple. -/
structure AnimKey where
  hand : Hand
  init : ℚ
  duration : ℚ
deriving DecidableEq, Repr

/-- The shared asset container's `animationData` collection: a list of
registered animation data, each carrying its cache key (its name) and the
identity of the underlying data object (creation index). -/
abbrev AnimStore := List (AnimKey × ℕ)

/-- The lookup `this.assets.animationData.find(a => a.name == animationName)`. -/
def findData (s : AnimStore) (k : AnimKey) : Option ℕ :=
  (s.find? (fun p => p.1 = k)).map Prod.snd

/-- The check-then-insert step of `animateHandHelper`: consult the shared
cache; on a miss, `createAnimationData` registers a fresh data object
(`s.length` serves as the fresh identity) at the end of the collection.
Returns the identity of the data object used together with the updated
store. -/
def getOrCreate (s : AnimStore) (k : AnimKey) : ℕ × AnimStore :=
  match findData s k with
  | some i => (i, s)
  | none => (s.length, s ++ [(k, s.length)])

/-- A sequence of animation-data requests against one shared store. -/
def runRequests (s : AnimStore) (ks : List AnimKey) : AnimStore :=
  ks.foldl (fun s k => (getOrCreate s k).2) s

/-- Progress of one hand's asynchronous pipeline in `animateHands`:
not yet started, inside the `await` of the non-looping helper call
(the catch-up `setTimeout` pending), or past it (the looping helper
call issued). -/
inductive Phase
  | idle
  | waitingCatchUp
  | looping
deriving DecidableEq, Repr

/-- The animation handle stored in `this.animations` by
`animateHandHelper`: the keyframes of the bound data, the wrap mode
(`loop` ↦ `AnimationWrapMode.Loop`, otherwise `Once`) and the `isPlaying`
flag. -/
structure Anim where
  data : List Keyframe
  loopMode : Bool
  playing : Bool
deriving DecidableEq, Repr

/-- Per-hand runtime state: pipeline phase and the animation currently
registered in `this.animations` for that hand, if any. -/
structure HandState where
  phase : Phase
  anim : Option Anim
deriving DecidableEq, Repr

/-- Runtime state of one watch instance: the three per-hand states. -/
structure WState where
  hour : HandState
  minute : HandState
  second : HandState
deriving DecidableEq, Repr

def WState.hand (s : WState) : Hand → HandState
  | .hour => s.hour
  | .minute => s.minute
  | .second => s.second

def WState.setHand (s : WState) : Hand → HandState → WState
  | .hour, hs => { s with hour := hs }
  | .minute, hs => { s with minute := hs }
  | .second, hs => { s with second := hs }

/-- The fresh state of a watch instance before `animateHands` runs. -/
def initialState : WState :=
  ⟨⟨.idle, none⟩, ⟨.idle, none⟩, ⟨.idle, none⟩⟩

/-- Events of the cooperative single-threaded interleaving:
`startCatchUp h` is the body of hand `h`'s async closure up to its
suspension inside the `await` (computing `init`/`duration`, binding the
catch-up animation with `isPlaying: true`, arming the `setTimeout`);
`timerFire h` is the resumption when the timer resolves, which
immediately issues the looping helper call (binding the loop animation
with `isPlaying: true`); `stop` is `this.stop()`, which calls
`a.stop()` on every animation in `this.animations`. -/
inductive Ev
  | startCatchUp (h : Hand)
  | timerFire (h : Hand)
  | stop
deriving DecidableEq, Repr

/-- What `stop()` does: halt every currently registered animation
(`this.animations.forEach(a => a.stop())`); no flag is set and no pending
timer is cancelled. -/
def stopAll (s : WState) : WState :=
  let halt : HandState → HandState :=
    fun hs => ⟨hs.phase, hs.anim.map (fun a => ⟨a.data, a.loopMode, false⟩)⟩
  ⟨halt s.hour, halt s.minute, halt s.second⟩

/-- One interleaving step of the watch instance whose sample was `t`
(`animateHands(t)`). `none` means the event is not enabled in this
state. -/
def step (t : ℚ) (s : WState) : Ev → Option WState
  | .startCatchUp h =>
    if (s.hand h).phase = .idle then
      some (s.setHand h ⟨.waitingCatchUp,
        some ⟨keyframes (initAngle h t) (catchUpDuration h t), false, true⟩⟩)
    else none
  | .timerFire h =>
    if (s.hand h).phase = .waitingCatchUp then
      some (s.setHand h ⟨.looping, some ⟨keyframes 0 h.full, true, true⟩⟩)
    else none
  | .stop => some (stopAll s)

/-- Run a sequence of interleaving events from a state. -/
def run (t : ℚ) (s : WState) : List Ev → Option WState
  | [] => some s
  | e :: es => match step t s e with
    | some s' => run t s' es
    | none => none

theorem Hand.full_pos (h : Hand) : 0 < h.full := by
  cases h <;> norm_num [Hand.full]

theorem jsMod_eq_self {t b : ℚ} (hb : 0 < b) (h0 : 0 ≤ t) (h1 : t < b) :
    jsMod t b = t := by
  unfold jsMod
  have hfloor : ⌊t / b⌋ = 0 := by
    rw [Int.floor_eq_zero_iff]
    constructor
    · exact div_nonneg h0 hb.le
    · exact (div_lt_one hb).mpr h1
  rw [hfloor]
  ring

theorem initAngle_eq_scaled (h : Hand) (t : ℚ) (h0 : 0 ≤ t) (h1 : t < h.full) :
    initAngle h t = t / h.full * 360 := by
  cases h with
  | hour => simp [initAngle, Hand.full]
  | minute =>
      simp only [initAngle, Hand.full] at h1 ⊢
      rw [jsMod_eq_self (by norm_num) h0 h1]
  | second =>
      simp only [initAngle, Hand.full] at h1 ⊢
      rw [jsMod_eq_self (by norm_num) h0 h1]

theorem scaled_bounds {t full : ℚ} (hf : 0 < full) (h0 : 0 ≤ t) (h1 : t < full) :
    0 ≤ t / full * 360 ∧ t / full * 360 < 360 := by
  constructor
  · positivity
  · have hlt : t / full < 1 := (div_lt_one hf).mpr h1
    nlinarith

theorem WState.hand_setHand_same (s : WState) (h : Hand) (hs : HandState) :
    (s.setHand h hs).hand h = hs := by
  cases h <;> rfl

theorem WState.hand_setHand_ne (s : WState) {h h' : Hand} (hs : HandState)
    (hne : h' ≠ h) : (s.setHand h' hs).hand h = s.hand h := by
  cases h <;> cases h' <;> first | rfl | exact absurd rfl hne

theorem stopAll_hand (s : WState) (h : Hand) :
    (stopAll s).hand h =
      ⟨(s.hand h).phase, (s.hand h).anim.map (fun a => ⟨a.data, a.loopMode, false⟩)⟩ := by
  cases h <;> rfl

/-- C9: the time sampler's output is a function of the rendered hour and
minute components only — two readings agreeing on hour and minute but
differing in the second yield the same sample, so the second hand's
apparent starting offset is quantized to the minute. -/
theorem C9_sample_ignores_seconds (h m s₁ s₂ : ℕ) :
    now ⟨h, m, s₁⟩ = now ⟨h, m, s₂⟩ := rfl

/-- C1 counterexample: at the wall-clock reading 1:00:30, the source's
`t[0] * 3600 + t[1] * 60 + t[0]` returns 3601, not
`hour * 3600 + minute * 60 + second = 3630` as the claim states. -/
theorem C1_counterexample :
    Reading.valid ⟨1, 0, 30⟩ ∧ now ⟨1, 0, 30⟩ = 3601 ∧
      now ⟨1, 0, 30⟩ ≠ 1 * 3600 + 0 * 60 + 30 := by
  refine ⟨by decide, rfl, by decide⟩

/-- C1 amended: the sample equals `hour * 3600 + minute * 60 + hour` —
the third addend is the hour component again (`t[0]`, not `t[2]`) — so it
equals `hour * 3600 + minute * 60 + second` exactly when the rendered
second happens to equal the rendered hour. -/
theorem C1_sample_formula (r : Reading) :
    now r = r.hour * 3600 + r.minute * 60 + r.hour ∧
      (now r = r.hour * 3600 + r.minute * 60 + r.second ↔ r.second = r.hour) := by
  refine ⟨rfl, ?_⟩
  unfold now
  omega

/-- C4 counterexample: at the reading 12:00:00 (the en-US rendering of a
12-hour boundary), the sample is `12 * 3600 + 0 + 12 = 43212`, outside
the claimed range `[0, 43200)` (the true elapsed time since the boundary
is 0 seconds). -/
theorem C4_counterexample :
    Reading.valid ⟨12, 0, 0⟩ ∧ now ⟨12, 0, 0⟩ = 43212 ∧
      ¬ now ⟨12, 0, 0⟩ < 43200 := by
  refine ⟨by decide, rfl, by decide⟩

/-- C4 amended: over valid en-US 12-hour renderings (hour 1..12, minute
and second 0..59) the sample lies in `[3601, 46752]`; because the hour is
rendered 1..12 and the last addend is the hour rather than the second, it
is not the elapsed seconds since the most recent 12-hour boundary. -/
theorem C4_sample_range (r : Reading) (hv : r.valid) :
    3601 ≤ now r ∧ now r ≤ 46752 := by
  obtain ⟨h1, h2, h3, _⟩ := hv
  unfold now
  omega

/-- C4 witness: the amended range claim instantiated at the reading
1:00:00. -/
theorem C4_sample_range_witness :
    Reading.valid ⟨1, 0, 0⟩ ∧ 3601 ≤ now ⟨1, 0, 0⟩ ∧ now ⟨1, 0, 0⟩ ≤ 46752 :=
  ⟨by decide, C4_sample_range ⟨1, 0, 0⟩ (by decide)⟩

/-- C8: for every hand and every sample in `[0, full)`, the computed
initial angle lies in `[0, 360)` and
`initAngle + catchUpDuration / full * 360 = 360`, so the catch-up phase
ends exactly at the 0°/360° wrap point. -/
theorem C8_catchup_closes_cycle (h : Hand) (t : ℚ) (h0 : 0 ≤ t)
    (h1 : t < h.full) :
    (0 ≤ initAngle h t ∧ initAngle h t < 360) ∧
      initAngle h t + catchUpDuration h t / h.full * 360 = 360 := by
  have hf := h.full_pos
  have heq := initAngle_eq_scaled h t h0 h1
  refine ⟨heq ▸ scaled_bounds hf h0 h1, ?_⟩
  unfold catchUpDuration
  field_simp
  ring

/-- C8 witness: the wrap-point identity instantiated for the second hand
at sample 30 (half a minute: angle 180°, catch-up 30 s). -/
theorem C8_catchup_closes_cycle_witness :
    (0 ≤ initAngle Hand.second 30 ∧ initAngle Hand.second 30 < 360) ∧
      initAngle Hand.second 30 +
        catchUpDuration Hand.second 30 / Hand.second.full * 360 = 360 :=
  C8_catchup_closes_cycle Hand.second 30 (by norm_num)
    (by norm_num [Hand.full])

/-- C2 counterexample: the sample 43212 is produced by the reading
12:00:00, yet for the hour hand the source computes
`init = 43212 / 43200 * 360 = 360.1` — without the `mod` the claim
states, and outside the claimed range `[0, 360)`; the claimed formula
`(sample mod full) / full * 360` would give `0.1`. -/
theorem C2_counterexample :
    now ⟨12, 0, 0⟩ = 43212 ∧
      initAngle Hand.hour 43212 = 3601 / 10 ∧
      specInitAngle Hand.hour 43212 = 1 / 10 ∧
      initAngle Hand.hour 43212 ≠ specInitAngle Hand.hour 43212 ∧
      ¬ initAngle Hand.hour 43212 < 360 := by
  refine ⟨rfl, by norm_num [initAngle], ?_, ?_, by norm_num [initAngle]⟩ <;>
    norm_num [initAngle, specInitAngle, jsMod, Hand.full]

/-- C2 amended: the minute and second hands compute
`initAngle = (sample mod full) / full * 360` as claimed, and every hand
computes `catchUpDuration = (360 - initAngle) / 360 * full`; the hour
hand, however, computes `sample / full * 360` with no `mod`, which
agrees with the claimed formula only for samples in `[0, 43200)`. -/
theorem C2_phase_formulas :
    (∀ t : ℚ,
      initAngle Hand.minute t = specInitAngle Hand.minute t ∧
      initAngle Hand.second t = specInitAngle Hand.second t ∧
      initAngle Hand.hour t = t / Hand.hour.full * 360 ∧
      (∀ h : Hand, catchUpDuration h t = (360 - initAngle h t) / 360 * h.full)) ∧
    (∀ t : ℚ, 0 ≤ t → t < 43200 →
      initAngle Hand.hour t = specInitAngle Hand.hour t) := by
  constructor
  · intro t
    exact ⟨rfl, rfl, rfl, fun _ => rfl⟩
  · intro t h0 h1
    unfold specInitAngle
    rw [jsMod_eq_self (by norm_num [Hand.full]) h0 (by norm_num [Hand.full]; exact h1)]
    rfl

/-- C2 witness: both parts of the amended claim instantiated at the
spec's concrete scenario sample 3661 (1h 1m 1s). -/
theorem C2_phase_formulas_witness :
    initAngle Hand.minute 3661 = specInitAngle Hand.minute 3661 ∧
      catchUpDuration Hand.second 3661 =
        (360 - initAngle Hand.second 3661) / 360 * Hand.second.full ∧
      initAngle Hand.hour 3661 = specInitAngle Hand.hour 3661 :=
  ⟨(C2_phase_formulas.1 3661).1,
   (C2_phase_formulas.1 3661).2.2.2 Hand.second,
   C2_phase_formulas.2 3661 (by norm_num) (by norm_num)⟩

/-- C6: for every hand and initial angle in `[0, 360)` with its
catch-up duration `d = (360 - init) / 360 * full`, the keyframe sequence
has length 3 when `init < 180`, with the midpoint holding 180° at time
`d / (360 - init) * (180 - init)`, strictly between 0 and `d`; for
`init ≥ 180` the sequence has length 2. -/
theorem C6_midpoint_insertion (h : Hand) (init d : ℚ) (h0 : 0 ≤ init)
    (h1 : init < 360) (hd : d = (360 - init) / 360 * h.full) :
    (init < 180 →
      (keyframes init d).length = 3 ∧
      keyframes init d =
        [⟨0, init⟩, ⟨d / (360 - init) * (180 - init), 180⟩, ⟨d, 360⟩] ∧
      0 < d / (360 - init) * (180 - init) ∧
      d / (360 - init) * (180 - init) < d) ∧
    (180 ≤ init → (keyframes init d).length = 2) := by
  have hf := h.full_pos
  constructor
  · intro h180
    have h360 : (0 : ℚ) < 360 - init := by linarith
    have hd0 : 0 < d := by
      rw [hd]
      exact mul_pos (div_pos h360 (by norm_num)) hf
    have hmid0 : 0 < d / (360 - init) * (180 - init) := by
      have h180' : (0 : ℚ) < 180 - init := by linarith
      exact mul_pos (div_pos hd0 h360) h180'
    refine ⟨?_, ?_, hmid0, ?_⟩
    · simp [keyframes, h180]
    · simp [keyframes, h180]
    · rw [div_mul_eq_mul_div, div_lt_iff₀ h360]
      nlinarith
  · intro h180
    simp [keyframes, not_lt.mpr h180]

/-- C6 witness: the midpoint branch at the second hand with
`init = 90`, `d = 45` (midpoint at 15 s), and the two-keyframe branch at
`init = 270`, `d = 15`. -/
theorem C6_midpoint_insertion_witness :
    ((keyframes 90 45).length = 3 ∧
      keyframes 90 45 =
        [⟨0, 90⟩, ⟨45 / (360 - 90) * (180 - 90), 180⟩, ⟨45, 360⟩] ∧
      0 < (45 : ℚ) / (360 - 90) * (180 - 90) ∧
      (45 : ℚ) / (360 - 90) * (180 - 90) < 45) ∧
    (keyframes 270 15).length = 2 :=
  ⟨(C6_midpoint_insertion Hand.second 90 45 (by norm_num) (by norm_num)
      (by norm_num [Hand.full])).1 (by norm_num),
   (C6_midpoint_insertion Hand.second 270 15 (by norm_num) (by norm_num)
      (by norm_num [Hand.full])).2 (by norm_num)⟩

/-- C10: the loop phase is built by the same keyframe routine, invoked
with initial angle 0 and duration `full`; since `0 < 180` the midpoint
rule fires, so the loop track always has exactly the three keyframes
0° at time 0, 180° at time `full / 2`, and 360° at time `full`. -/
theorem C10_loop_keyframes :
    (∀ h : Hand,
      (keyframes 0 h.full).length = 3 ∧
      keyframes 0 h.full = [⟨0, 0⟩, ⟨h.full / 2, 180⟩, ⟨h.full, 360⟩]) ∧
    (∀ (t : ℚ) (s s' : WState) (h : Hand),
      step t s (.timerFire h) = some s' →
      (s'.hand h).anim = some ⟨keyframes 0 h.full, true, true⟩) := by
  constructor
  · intro h
    cases h <;>
      refine ⟨by norm_num [keyframes], ?_⟩ <;>
      norm_num [keyframes, Hand.full]
  · intro t s s' h hstep
    simp only [step] at hstep
    split at hstep
    · cases hstep
      rw [WState.hand_setHand_same]
    · cases hstep

/-- C10 witness: the loop for the second hand (full = 60 s) has
keyframes at 0, 30 and 60 seconds, and the timer-fire step installs the
loop data for a waiting hand. -/
theorem C10_loop_keyframes_witness :
    keyframes 0 Hand.second.full =
      [⟨0, 0⟩, ⟨Hand.second.full / 2, 180⟩, ⟨Hand.second.full, 360⟩] ∧
    (((initialState.setHand Hand.second
          ⟨Phase.waitingCatchUp, none⟩).setHand Hand.second
        ⟨Phase.looping, some ⟨keyframes 0 Hand.second.full, true, true⟩⟩).hand
          Hand.second).anim =
      some ⟨keyframes 0 Hand.second.full, true, true⟩ :=
  ⟨(C10_loop_keyframes.1 Hand.second).2,
   C10_loop_keyframes.2 0
     (initialState.setHand Hand.second ⟨Phase.waitingCatchUp, none⟩) _
     Hand.second rfl⟩

/-- C7: the loop phase starts only as the atomic continuation of its
hand's resolved catch-up wait (never before it), the timer-fire step is
always enabled while the hand waits and installs exactly the loop
animation, no other event ends the wait (so the loop is never skipped),
and the wait duration is the authored duration of the catch-up data,
namely its last keyframe's time `duration` — a timer, not a playback
callback. -/
theorem C7_loop_after_wait :
    (∀ (t : ℚ) (s s' : WState) (h : Hand),
      step t s (.timerFire h) = some s' →
      (s.hand h).phase = .waitingCatchUp ∧ (s'.hand h).phase = .looping ∧
        (s'.hand h).anim = some ⟨keyframes 0 h.full, true, true⟩) ∧
    (∀ (t : ℚ) (s : WState) (h : Hand),
      (s.hand h).phase = .waitingCatchUp →
      step t s (.timerFire h) =
        some (s.setHand h ⟨.looping, some ⟨keyframes 0 h.full, true, true⟩⟩)) ∧
    (∀ (t : ℚ) (s s' : WState) (h : Hand) (e : Ev),
      step t s e = some s' → (s.hand h).phase = .waitingCatchUp →
      e ≠ .timerFire h → (s'.hand h).phase = .waitingCatchUp) ∧
    (∀ init duration : ℚ, catchUpWait init duration = duration) := by
  refine ⟨?_, ?_, ?_, ?_⟩
  · intro t s s' h hstep
    simp only [step] at hstep
    split at hstep
    · cases hstep
      rename_i hphase
      exact ⟨hphase, by rw [WState.hand_setHand_same], by rw [WState.hand_setHand_same]⟩
    · cases hstep
  · intro t s h hphase
    simp only [step, hphase, if_pos]
  · intro t s s' h e hstep hphase hne
    cases e with
    | startCatchUp h' =>
        simp only [step] at hstep
        split at hstep
        · cases hstep
          rename_i hidle
          by_cases hh : h' = h
          · rw [hh] at hidle
            rw [hidle] at hphase
            cases hphase
          · rw [WState.hand_setHand_ne _ _ hh, hphase]
        · cases hstep
    | timerFire h' =>
        simp only [step] at hstep
        split at hstep
        · cases hstep
          have hh : h' ≠ h := fun he => hne (by rw [he])
          rw [WState.hand_setHand_ne _ _ hh, hphase]
        · cases hstep
    | stop =>
        simp only [step] at hstep
        cases hstep
        rw [stopAll_hand, hphase]
  · intro init duration
    unfold catchUpWait dataDuration keyframes
    split <;> rfl

/-- C7 witness: for a state whose second hand is waiting on its catch-up
timer, the timer-fire step installs the playing loop animation, and the
catch-up wait for `init = 90`, `duration = 45` is exactly 45 seconds. -/
theorem C7_loop_after_wait_witness :
    step 0 (initialState.setHand Hand.second ⟨Phase.waitingCatchUp, none⟩)
        (.timerFire Hand.second) =
      some ((initialState.setHand Hand.second
          ⟨Phase.waitingCatchUp, none⟩).setHand Hand.second
        ⟨Phase.looping, some ⟨keyframes 0 Hand.second.full, true, true⟩⟩) ∧
    catchUpWait 90 45 = 45 :=
  ⟨C7_loop_after_wait.2.1 0
     (initialState.setHand Hand.second ⟨Phase.waitingCatchUp, none⟩)
     Hand.second rfl,
   C7_loop_after_wait.2.2.2 90 45⟩

/-- C3 counterexample: in the trace start-catch-up, `stop()`, timer-fire
for the second hand, `stop()` runs while the catch-up wait is still
pending, yet the wait's continuation afterwards starts the loop phase
with a playing loop animation — so a phase is started after `stop()`. -/
theorem C3_counterexample :
    run 0 initialState [.startCatchUp .second, .stop, .timerFire .second] =
      some ⟨⟨.idle, none⟩, ⟨.idle, none⟩,
        ⟨.looping, some ⟨keyframes 0 Hand.second.full, true, true⟩⟩⟩ ∧
    ((⟨⟨.idle, none⟩, ⟨.idle, none⟩,
        ⟨.looping, some ⟨keyframes 0 Hand.second.full, true, true⟩⟩⟩ :
          WState).hand .second).phase = .looping ∧
    ((⟨⟨.idle, none⟩, ⟨.idle, none⟩,
        ⟨.looping, some ⟨keyframes 0 Hand.second.full, true, true⟩⟩⟩ :
          WState).hand .second).anim.map Anim.playing = some true :=
  ⟨rfl, rfl, rfl⟩

/-- C3 amended: `stop()` immediately halts every animation currently
registered for the instance, in whichever phase, and leaves the pipeline
phases untouched; it does not prevent further phases — a catch-up wait
still pending when `stop()` runs goes on to start the (playing) loop
phase when its timer fires. -/
theorem C3_stop_halts :
    (∀ (t : ℚ) (s : WState), step t s .stop = some (stopAll s)) ∧
    (∀ (s : WState) (h : Hand) (a : Anim),
      ((stopAll s).hand h).anim = some a → a.playing = false) ∧
    (∀ (s : WState) (h : Hand),
      ((stopAll s).hand h).phase = (s.hand h).phase) ∧
    (∀ (t : ℚ) (s : WState) (h : Hand),
      (s.hand h).phase = .waitingCatchUp →
      step t s (.timerFire h) =
        some (s.setHand h ⟨.looping, some ⟨keyframes 0 h.full, true, true⟩⟩) ∧
      ((s.setHand h
          ⟨.looping, some ⟨keyframes 0 h.full, true, true⟩⟩).hand h).phase =
        .looping ∧
      ((s.setHand h
          ⟨.looping, some ⟨keyframes 0 h.full, true, true⟩⟩).hand h).anim =
        some ⟨keyframes 0 h.full, true, true⟩) := by
  refine ⟨fun t s => rfl, ?_, ?_, ?_⟩
  · intro s h a ha
    rw [stopAll_hand] at ha
    cases hanim : (s.hand h).anim with
    | none => rw [hanim] at ha; cases ha
    | some a' =>
        rw [hanim] at ha
        injection ha with ha'
        rw [← ha']
  · intro s h
    rw [stopAll_hand]
  · intro t s h hphase
    refine ⟨?_, ?_, ?_⟩
    · simp only [step, hphase, if_pos]
    · rw [WState.hand_setHand_same]
    · rw [WState.hand_setHand_same]

/-- C3 witness: the amended claim instantiated at a state whose second
hand is waiting on its catch-up timer with a playing catch-up animation:
`stop()` leaves that animation registered but not playing, and the timer
fire still produces a playing loop. -/
theorem C3_stop_halts_witness :
    ((stopAll (initialState.setHand Hand.second
        ⟨Phase.waitingCatchUp, some ⟨[], false, true⟩⟩)).hand Hand.second).anim =
      some ⟨[], false, false⟩ ∧
    (Anim.mk [] false false).playing = false ∧
    step 0 (initialState.setHand Hand.second
        ⟨Phase.waitingCatchUp, some ⟨[], false, true⟩⟩)
        (.timerFire Hand.second) =
      some ((initialState.setHand Hand.second
          ⟨Phase.waitingCatchUp, some ⟨[], false, true⟩⟩).setHand Hand.second
        ⟨Phase.looping, some ⟨keyframes 0 Hand.second.full, true, true⟩⟩) ∧
    (((initialState.setHand Hand.second
          ⟨Phase.waitingCatchUp, some ⟨[], false, true⟩⟩).setHand Hand.second
        ⟨Phase.looping,
          some ⟨keyframes 0 Hand.second.full, true, true⟩⟩).hand
            Hand.second).anim.map Anim.playing = some true :=
  ⟨rfl,
   C3_stop_halts.2.1
     (initialState.setHand Hand.second
       ⟨Phase.waitingCatchUp, some ⟨[], false, true⟩⟩)
     Hand.second ⟨[], false, false⟩ rfl,
   (C3_stop_halts.2.2.2 0
     (initialState.setHand Hand.second
       ⟨Phase.waitingCatchUp, some ⟨[], false, true⟩⟩)
     Hand.second rfl).1,
   rfl⟩

theorem findData_append_hit (s : AnimStore) (k : AnimKey) (n : ℕ)
    (h : findData s k = none) : findData (s ++ [(k, n)]) k = some n := by
  unfold findData at h ⊢
  have hf : s.find? (fun p => p.1 = k) = none := by
    cases hfind : s.find? (fun p => p.1 = k) with
    | none => rfl
    | some p => rw [hfind] at h; cases h
  rw [List.find?_append, hf]
  simp [List.find?]

theorem findData_none_not_mem (s : AnimStore) (k : AnimKey)
    (h : findData s k = none) : k ∉ s.map Prod.fst := by
  unfold findData at h
  have hf : s.find? (fun p => p.1 = k) = none := by
    cases hfind : s.find? (fun p => p.1 = k) with
    | none => rfl
    | some p => rw [hfind] at h; cases h
  intro hmem
  obtain ⟨p, hp, hpk⟩ := List.mem_map.mp hmem
  have := List.find?_eq_none.mp hf p hp
  simp [hpk] at this

theorem getOrCreate_nodup (s : AnimStore) (k : AnimKey)
    (h : (s.map Prod.fst).Nodup) :
    ((getOrCreate s k).2.map Prod.fst).Nodup := by
  unfold getOrCreate
  cases hfind : findData s k with
  | some i => exact h
  | none =>
      simp only [List.map_append, List.map_cons, List.map_nil]
      rw [List.nodup_append]
      refine ⟨h, List.nodup_singleton k, ?_⟩
      intro a ha hak
      rw [List.mem_singleton.mp hak] at ha
      exact findData_none_not_mem s k hfind ha

theorem runRequests_nodup (ks : List AnimKey) :
    ∀ s : AnimStore, (s.map Prod.fst).Nodup →
      ((runRequests s ks).map Prod.fst).Nodup := by
  induction ks with
  | nil => intro s h; exact h
  | cons k ks ih =>
      intro s h
      exact ih (getOrCreate s k).2 (getOrCreate_nodup s k h)

/-- C5: the animation-data cache is consulted first (a hit changes
nothing and returns the cached object), new data is registered only on a
miss (appended with a fresh identity), a repeated request for the same
key returns the same object and store, and after any sequence of
requests against an initially empty shared store there is at most one
data object per key. -/
theorem C5_cache_idempotent :
    (∀ (s : AnimStore) (k : AnimKey) (i : ℕ),
      findData s k = some i → getOrCreate s k = (i, s)) ∧
    (∀ (s : AnimStore) (k : AnimKey),
      findData s k = none →
      getOrCreate s k = (s.length, s ++ [(k, s.length)])) ∧
    (∀ (s : AnimStore) (k : AnimKey),
      getOrCreate (getOrCreate s k).2 k = getOrCreate s k) ∧
    (∀ (s : AnimStore) (k : AnimKey), (s.map Prod.fst).Nodup →
      ((getOrCreate s k).2.map Prod.fst).Nodup) ∧
    (∀ ks : List AnimKey, ((runRequests [] ks).map Prod.fst).Nodup) := by
  refine ⟨?_, ?_, ?_, getOrCreate_nodup, fun ks => runRequests_nodup ks [] (by simp)⟩
  · intro s k i h
    unfold getOrCreate
    rw [h]
  · intro s k h
    unfold getOrCreate
    rw [h]
  · intro s k
    unfold getOrCreate
    cases hfind : findData s k with
    | some i => simp [hfind]
    | none => simp [hfind, findData_append_hit s k s.length hfind]

/-- C5 witness: the cache behaviour at the key (hour, 0°, 43200 s)
against the empty shared store: the first request registers one object,
the repeated request returns the identical result, and the store keeps a
single entry per key even after the duplicate request. -/
theorem C5_cache_idempotent_witness :
    getOrCreate [] ⟨Hand.hour, 0, 43200⟩ =
      (0, [(⟨Hand.hour, 0, 43200⟩, 0)]) ∧
    getOrCreate (getOrCreate [] ⟨Hand.hour, 0, 43200⟩).2 ⟨Hand.hour, 0, 43200⟩ =
      getOrCreate [] ⟨Hand.hour, 0, 43200⟩ ∧
    (((getOrCreate [] ⟨Hand.hour, 0, 43200⟩).2).map Prod.fst).Nodup ∧
    ((runRequests []
        [⟨Hand.hour, 0, 43200⟩, ⟨Hand.hour, 0, 43200⟩]).map Prod.fst).Nodup :=
  ⟨C5_cache_idempotent.2.1 [] ⟨Hand.hour, 0, 43200⟩ rfl,
   C5_cache_idempotent.2.2.1 [] ⟨Hand.hour, 0, 43200⟩,
   C5_cache_idempotent.2.2.2.1 [] ⟨Hand.hour, 0, 43200⟩ (by simp),
   C5_cache_idempotent.2.2.2.2 [⟨Hand.hour, 0, 43200⟩, ⟨Hand.hour, 0, 43200⟩]⟩

end AnalogWatch
